import Mathlib

/-!
# Verification of the `cirque` producer/consumer recycling protocol

Shallow embedding of `src/lib.rs` of the `cirque` crate.  The crate is a
protocol layer over two single-producer/single-consumer queues from the
external `llq` crate (not part of this repository's sources): a forward
queue (producer → consumer) and a backward queue (consumer → producer),
plus a producer-side free-list (`recycled_nodes : Vec<Node<T>>`) bounded by
`recycling_capacity`.

Modelling decisions:
* `llq::Queue` is modelled from the spec (its code is not in `src/`): an
  unbounded FIFO — `push` appends at the tail, `pop` removes the head,
  `pop` on an empty queue yields `none`.
* An `llq::Node<T>` is a heap allocation; node identity (the heap address)
  is modelled by a natural-number id, allocated from a counter `nextId`.
  `Node::new` is the only operation that consumes a fresh id, so "no
  allocation happened" is expressed as `nextId` being unchanged.
* The Rust `Vec` backing `recycled_nodes` is modelled as a list in `Vec`
  order together with its storage capacity: `Vec::push` appends at the end
  (growing the capacity when full, to at least `len + 1`, the guarantee
  Rust provides), `Vec::pop` removes the last element,
  `Vec::truncate n` keeps the first `n` elements and leaves the capacity
  unchanged, `Vec::reserve a` ensures capacity `≥ len + a`.
* The `Recycler<T>` trait object (`fn recycle(&mut self, item: &mut T)`)
  is a state-threading function `rec : ρ → α → ρ × α`: it may mutate both
  its own state and the payload.  The producer's recycler state is a field
  of the state; operations that never call `recycle` do not take `rec`.
* The two threads of the real system interleave whole operations (each
  queue operation is a single atomic hand-off of one node), so the state
  of the whole system is one record `World` holding both queues, and every
  API operation is a function on `World`.
-/

namespace Cirque

/-- A heap node: one payload plus its identity (modelling the heap
address of the `llq::Node<T>` allocation). -/
structure Node (α : Type) where
  id : Nat
  payload : α
  deriving Repr, DecidableEq

/-- Payloads of a queue (or free-list) in order. -/
def payloads {α : Type} (q : List (Node α)) : List α :=
  q.map Node.payload

/-- `Vec::pop`: remove and return the last element, if any. -/
def vecPop {α : Type} (v : List α) : Option (α × List α) :=
  match v.reverse with
  | [] => none
  | x :: rest => some (x, rest.reverse)

/-- Capacity after a `Vec::push` onto a vector of length `len` with
storage capacity `cap`: unchanged if there is room, otherwise grown to at
least `len + 1` (the guarantee `Vec` provides; we model the minimal
growth). -/
def vecGrow (len cap : Nat) : Nat :=
  if len + 1 ≤ cap then cap else len + 1

/-- The joint state of one `Producer`/`Consumer` pair created by
`new_producer_consumer`.  `forwardQ` is the queue from
`Producer.tx`/`Consumer.rx`; `backwardQ` the one from
`Consumer.tx`/`Producer.rx`.  `recycler`, `recycling_capacity`,
`recycled_nodes` are the `Producer` fields; `recycled_cap` is the storage
capacity of the `recycled_nodes` vector; `nextId` is the allocator
counter. -/
structure World (α ρ : Type) where
  forwardQ : List (Node α)
  backwardQ : List (Node α)
  recycler : ρ
  recycling_capacity : Nat
  recycled_nodes : List (Node α)
  recycled_cap : Nat
  nextId : Nat

namespace World

variable {α ρ : Type}

/-- `new_producer_consumer(recycler, recycling_capacity)`: fresh pair of
queues, empty free-list allocated with `Vec::with_capacity`. -/
def new_producer_consumer (recycler : ρ) (recycling_capacity : Nat) :
    World α ρ :=
  { forwardQ := []
    backwardQ := []
    recycler := recycler
    recycling_capacity := recycling_capacity
    recycled_nodes := []
    recycled_cap := recycling_capacity
    nextId := 0 }

/-- `Producer::new_node`: reuse a node from the free-list
(`self.recycled_nodes.pop()`), else from the backward queue
(`self.rx.pop()`), overwriting its payload with `item`
(`std::mem::replace` drops the old payload); otherwise allocate a fresh
node (`Node::new(item)`). -/
def new_node (w : World α ρ) (item : α) : Node α × World α ρ :=
  match vecPop w.recycled_nodes with
  | some (n, rest) =>
      ({ n with payload := item }, { w with recycled_nodes := rest })
  | none =>
      match w.backwardQ with
      | n :: rest =>
          ({ n with payload := item }, { w with backwardQ := rest })
      | [] =>
          (⟨w.nextId, item⟩, { w with nextId := w.nextId + 1 })

/-- `Producer::push`: obtain a node via `new_node` and push it onto the
forward queue. -/
def push (w : World α ρ) (item : α) : World α ρ :=
  let (node, w') := w.new_node item
  { w' with forwardQ := w'.forwardQ ++ [node] }

/-- `Producer::tune_recycling_capacity`: truncate the free-list when the
new capacity is below its length, otherwise reserve storage; then store
the new capacity. -/
def tune_recycling_capacity (w : World α ρ) (recycling_capacity : Nat) :
    World α ρ :=
  let reservedCap :=
    max w.recycled_cap
      (w.recycled_nodes.length +
        (recycling_capacity - w.recycled_nodes.length))
  let w' :=
    if recycling_capacity < w.recycled_nodes.length then
      { w with recycled_nodes := w.recycled_nodes.take recycling_capacity }
    else
      { w with recycled_cap := reservedCap }
  { w' with recycling_capacity := recycling_capacity }

/-- The loop body of `Producer::drain_and_recycle`, recursing over the
nodes the backward queue will yield: for each node, if the free-list is
below capacity, run the recycler on the payload and `Vec::push` the node,
otherwise drop it.  Returns the final recycler state, free-list and
free-list storage capacity. -/
def drainGo (rec : ρ → α → ρ × α) :
    List (Node α) → ρ → List (Node α) → Nat → Nat →
      ρ × List (Node α) × Nat
  | [], st, fl, flCap, _cap => (st, fl, flCap)
  | n :: rest, st, fl, flCap, cap =>
      if fl.length < cap then
        drainGo rec rest (rec st n.payload).1
          (fl ++ [{ n with payload := (rec st n.payload).2 }])
          (vecGrow fl.length flCap) cap
      else
        drainGo rec rest st fl flCap cap

/-- `Producer::drain_and_recycle`: pop from the backward queue until it is
empty, recycling into the free-list while below capacity. -/
def drain_and_recycle (rec : ρ → α → ρ × α) (w : World α ρ) : World α ρ :=
  let r := drainGo rec w.backwardQ w.recycler w.recycled_nodes
    w.recycled_cap w.recycling_capacity
  { w with
    backwardQ := []
    recycler := r.1
    recycled_nodes := r.2.1
    recycled_cap := r.2.2 }

/-- `Consumer::pop`: remove and return the head of the forward queue, or
signal empty with `none`.  (The `ConsumableItem` wrapper is the node
itself.) -/
def pop (w : World α ρ) : Option (Node α) × World α ρ :=
  match w.forwardQ with
  | [] => (none, w)
  | n :: rest => (some n, { w with forwardQ := rest })

/-- `Consumer::push_back`: unwrap the consumed item to its node and push
it onto the backward queue. -/
def push_back (w : World α ρ) (node : Node α) : World α ρ :=
  { w with backwardQ := w.backwardQ ++ [node] }

/-- `Consumer::drain`: pop every available forward-queue entry and push
each back onto the backward queue. -/
def drain (w : World α ρ) : World α ρ :=
  match h : w.forwardQ with
  | [] => w
  | n :: rest =>
      drain { w with forwardQ := rest, backwardQ := w.backwardQ ++ [n] }
  termination_by w.forwardQ.length
  decreasing_by simp [h]

end World

/-- Closed form of the recycling pass: thread the recycler state through
the payloads of a list of nodes, returning the final recycler state and
the nodes with recycled payloads (used to characterize
`drain_and_recycle`). -/
def recycleFold {α ρ : Type} (rec : ρ → α → ρ × α) :
    ρ → List (Node α) → ρ × List (Node α)
  | st, [] => (st, [])
  | st, n :: rest =>
      let r := recycleFold rec (rec st n.payload).1 rest
      (r.1, { n with payload := (rec st n.payload).2 } :: r.2)

/-- One producer/consumer API call of the forward data path: a producer
`push` of an item, or a consumer `pop`. -/
inductive Op (α : Type) where
  | push (item : α)
  | pop
  deriving Repr, DecidableEq

/-- Run a sequence of forward-path operations; collect the payloads
returned by the pops, in order (a pop of an empty queue contributes
nothing). -/
def runOps {α ρ : Type} : List (Op α) → World α ρ → World α ρ × List α
  | [], w => (w, [])
  | Op.push a :: rest, w => runOps rest (w.push a)
  | Op.pop :: rest, w =>
      match w.pop with
      | (none, w') => runOps rest w'
      | (some n, w') =>
          let r := runOps rest w'
          (r.1, n.payload :: r.2)

/-- The items handed to `push` in a sequence of operations, in order. -/
def pushedItems {α : Type} : List (Op α) → List α
  | [] => []
  | Op.push a :: rest => a :: pushedItems rest
  | Op.pop :: rest => pushedItems rest

/-- Push every item of a list, in order. -/
def pushAll {α ρ : Type} : World α ρ → List α → World α ρ
  | w, [] => w
  | w, a :: rest => pushAll (w.push a) rest

/-- Perform `n` consumer pops, collecting the returned payloads in
order. -/
def popN {α ρ : Type} : Nat → World α ρ → List α × World α ρ
  | 0, w => ([], w)
  | n + 1, w =>
      match w.pop with
      | (none, w') => ([], w')
      | (some nd, w') =>
          let r := popN n w'
          (nd.payload :: r.1, r.2)

namespace World

variable {α ρ : Type}

theorem new_node_payload (w : World α ρ) (item : α) :
    ((w.new_node item).1).payload = item := by
  unfold new_node
  rcases h : vecPop w.recycled_nodes with _ | ⟨n, rest⟩
  · rcases hb : w.backwardQ with _ | ⟨n, rest⟩ <;> simp [h, hb]
  · simp [h]

theorem new_node_forwardQ (w : World α ρ) (item : α) :
    ((w.new_node item).2).forwardQ = w.forwardQ := by
  unfold new_node
  rcases h : vecPop w.recycled_nodes with _ | ⟨n, rest⟩
  · rcases hb : w.backwardQ with _ | ⟨n, rest⟩ <;> simp [h, hb]
  · simp [h]

theorem push_forwardQ (w : World α ρ) (item : α) :
    (w.push item).forwardQ = w.forwardQ ++ [(w.new_node item).1] := by
  simp [push, new_node_forwardQ]

theorem push_payloads (w : World α ρ) (item : α) :
    payloads (w.push item).forwardQ = payloads w.forwardQ ++ [item] := by
  simp [push_forwardQ, payloads, new_node_payload]

theorem recycleFold_length (rec : ρ → α → ρ × α) (st : ρ)
    (l : List (Node α)) : (recycleFold rec st l).2.length = l.length := by
  induction l generalizing st with
  | nil => simp [recycleFold]
  | cons n rest ih => simp [recycleFold, ih]

theorem drainGo_eq (rec : ρ → α → ρ × α) (bq : List (Node α)) (st : ρ)
    (fl : List (Node α)) (flCap cap : Nat) :
    (drainGo rec bq st fl flCap cap).1
        = (recycleFold rec st (bq.take (cap - fl.length))).1
      ∧ (drainGo rec bq st fl flCap cap).2.1
        = fl ++ (recycleFold rec st (bq.take (cap - fl.length))).2 := by
  induction bq generalizing st fl flCap with
  | nil => simp [drainGo, recycleFold]
  | cons n rest ih =>
    by_cases h : fl.length < cap
    · have hk : cap - fl.length = cap - (fl.length + 1) + 1 := by omega
      have ihx := ih (rec st n.payload).1
        (fl ++ [{ n with payload := (rec st n.payload).2 }])
        (vecGrow fl.length flCap)
      simp only [List.length_append, List.length_singleton] at ihx
      rw [hk]
      simp only [drainGo, if_pos h, List.take_succ_cons, recycleFold]
      refine ⟨ihx.1, ?_⟩
      rw [ihx.2, List.append_assoc]
      simp
    · have hk : cap - fl.length = 0 := by omega
      have ihx := ih st fl flCap
      simp only [drainGo, if_neg h]
      rw [hk] at ihx ⊢
      simpa [recycleFold] using ihx

theorem new_node_recycler (w : World α ρ) (item : α) :
    ((w.new_node item).2).recycler = w.recycler := by
  unfold new_node
  rcases h : vecPop w.recycled_nodes with _ | ⟨n, rest⟩
  · rcases hb : w.backwardQ with _ | ⟨n, rest⟩ <;> simp [h, hb]
  · simp [h]

theorem push_recycler (w : World α ρ) (item : α) :
    (w.push item).recycler = w.recycler := by
  simp [push, new_node_recycler]

theorem push_eq_freelist (w : World α ρ) (item : α) (n : Node α)
    (rest : List (Node α)) (h : vecPop w.recycled_nodes = some (n, rest)) :
    w.push item = { w with
      recycled_nodes := rest
      forwardQ := w.forwardQ ++ [{ n with payload := item }] } := by
  simp [push, new_node, h]

theorem push_eq_backward (w : World α ρ) (item : α) (n : Node α)
    (rest : List (Node α)) (h1 : vecPop w.recycled_nodes = none)
    (h2 : w.backwardQ = n :: rest) :
    w.push item = { w with
      backwardQ := rest
      forwardQ := w.forwardQ ++ [{ n with payload := item }] } := by
  simp [push, new_node, h1, h2]

theorem push_eq_alloc (w : World α ρ) (item : α)
    (h1 : vecPop w.recycled_nodes = none) (h2 : w.backwardQ = []) :
    w.push item = { w with
      nextId := w.nextId + 1
      forwardQ := w.forwardQ ++ [⟨w.nextId, item⟩] } := by
  simp [push, new_node, h1, h2]

end World

open World

/-- Claim C1: `drain_and_recycle` empties the backward queue; the nodes it
yields that fit under the configured capacity (exactly the first
`recycling_capacity - recycled_nodes.length` of them) have their payloads
passed through the recycler and are appended to the free-list, and the
remaining nodes are dropped without the recycler being invoked on them:
the final recycler state is the fold of `recycle` over exactly the
retained payloads. -/
theorem drain_and_recycle_correct {α ρ : Type} (rec : ρ → α → ρ × α)
    (w : World α ρ) :
    (w.drain_and_recycle rec).backwardQ = []
    ∧ (w.drain_and_recycle rec).recycler
        = (recycleFold rec w.recycler
            (w.backwardQ.take
              (w.recycling_capacity - w.recycled_nodes.length))).1
    ∧ (w.drain_and_recycle rec).recycled_nodes
        = w.recycled_nodes ++
            (recycleFold rec w.recycler
              (w.backwardQ.take
                (w.recycling_capacity - w.recycled_nodes.length))).2 := by
  have h := drainGo_eq rec w.backwardQ w.recycler w.recycled_nodes
    w.recycled_cap w.recycling_capacity
  exact ⟨rfl, h.1, h.2⟩

/-- Claim C8: popping an empty forward queue returns the explicit
no-item result `none` and leaves the state unchanged; draining an empty
backward queue leaves the whole state — in particular the recycler state
(so the recycler is invoked zero times, for every recycler) and the
free-list contents — unchanged. -/
theorem empty_queue_behavior {α ρ : Type} (rec : ρ → α → ρ × α)
    (w w' : World α ρ) (h1 : w.forwardQ = []) (h2 : w'.backwardQ = []) :
    w.pop = (none, w) ∧ w'.drain_and_recycle rec = w' := by
  constructor
  · simp [World.pop, h1]
  · rcases w' with ⟨f, b, st, cap, fl, fc, ni⟩
    simp only at h2
    subst h2
    simp [World.drain_and_recycle, World.drainGo]

/-- Witness for C8 at a freshly constructed pair (both queues empty). -/
theorem empty_queue_behavior_witness :
    ((World.new_producer_consumer 3 2 : World Nat Nat).forwardQ = []
        ∧ (World.new_producer_consumer 3 2 : World Nat Nat).backwardQ = [])
    ∧ ((World.new_producer_consumer 3 2 : World Nat Nat).pop
          = (none, World.new_producer_consumer 3 2)
        ∧ (World.new_producer_consumer 3 2 :
            World Nat Nat).drain_and_recycle (fun s a => (s + 1, a))
          = World.new_producer_consumer 3 2) :=
  ⟨⟨rfl, rfl⟩,
    empty_queue_behavior (fun s a => (s + 1, a))
      (World.new_producer_consumer 3 2)
      (World.new_producer_consumer 3 2) rfl rfl⟩

/-- Claim C7: tuning the recycling capacity to `m` while the free-list
holds more than `m` nodes truncates the free-list to exactly `m` nodes
(its first `m`, the rest dropped now), while leaving both queues — and
hence every node in transit through them — unchanged. -/
theorem shrink_truncation {α ρ : Type} (w : World α ρ) (m : Nat)
    (h : m < w.recycled_nodes.length) :
    (w.tune_recycling_capacity m).recycled_nodes.length = m
    ∧ (w.tune_recycling_capacity m).recycled_nodes
        = w.recycled_nodes.take m
    ∧ (w.tune_recycling_capacity m).forwardQ = w.forwardQ
    ∧ (w.tune_recycling_capacity m).backwardQ = w.backwardQ := by
  refine ⟨?_, ?_, ?_, ?_⟩ <;>
    simp [World.tune_recycling_capacity, h, List.length_take] <;> omega

/-- Witness for C7: shrinking a free-list of three cached nodes to one. -/
theorem shrink_truncation_witness :
    (1 < 3)
    ∧ (({ forwardQ := [⟨9, 0⟩], backwardQ := [⟨8, 0⟩], recycler := 0,
          recycling_capacity := 3,
          recycled_nodes := [⟨0, 10⟩, ⟨1, 20⟩, ⟨2, 30⟩],
          recycled_cap := 3, nextId := 10 } :
            World Nat Nat).tune_recycling_capacity 1).recycled_nodes.length
        = 1 :=
  ⟨by decide,
    (shrink_truncation
      { forwardQ := [⟨9, 0⟩], backwardQ := [⟨8, 0⟩], recycler := 0,
        recycling_capacity := 3,
        recycled_nodes := [⟨0, 10⟩, ⟨1, 20⟩, ⟨2, 30⟩],
        recycled_cap := 3, nextId := 10 } 1 (by decide)).1⟩

/-- Claim C5: `push` obtains its node by popping the free-list when
non-empty, else popping the head of the backward queue when non-empty,
else allocating a fresh node; in the two reuse cases the old payload is
discarded and overwritten with the new item, and in every case the
obtained node is appended to the forward queue. -/
theorem push_node_source {α ρ : Type} (w : World α ρ) (item : α) :
    (∀ n rest, vecPop w.recycled_nodes = some (n, rest) →
        w.push item = { w with
          recycled_nodes := rest
          forwardQ := w.forwardQ ++ [{ n with payload := item }] })
    ∧ (∀ n rest, vecPop w.recycled_nodes = none → w.backwardQ = n :: rest →
        w.push item = { w with
          backwardQ := rest
          forwardQ := w.forwardQ ++ [{ n with payload := item }] })
    ∧ (vecPop w.recycled_nodes = none → w.backwardQ = [] →
        w.push item = { w with
          nextId := w.nextId + 1
          forwardQ := w.forwardQ ++ [⟨w.nextId, item⟩] }) :=
  ⟨fun n rest h => push_eq_freelist w item n rest h,
    fun n rest h1 h2 => push_eq_backward w item n rest h1 h2,
    fun h1 h2 => push_eq_alloc w item h1 h2⟩

/-- Witness for C5: the three acquisition paths exercised at concrete
states (free-list non-empty; free-list empty with a returned node
available; both empty). -/
theorem push_node_source_witness :
    (({ forwardQ := [], backwardQ := [⟨1, 0⟩], recycler := 0,
        recycling_capacity := 2, recycled_nodes := [⟨5, 7⟩],
        recycled_cap := 2, nextId := 6 } : World Nat Nat).push 9
      = { forwardQ := [⟨5, 9⟩], backwardQ := [⟨1, 0⟩], recycler := 0,
          recycling_capacity := 2, recycled_nodes := [],
          recycled_cap := 2, nextId := 6 })
    ∧ (({ forwardQ := [], backwardQ := [⟨1, 0⟩], recycler := 0,
          recycling_capacity := 2, recycled_nodes := [],
          recycled_cap := 2, nextId := 6 } : World Nat Nat).push 9
      = { forwardQ := [⟨1, 9⟩], backwardQ := [], recycler := 0,
          recycling_capacity := 2, recycled_nodes := [],
          recycled_cap := 2, nextId := 6 })
    ∧ (({ forwardQ := [], backwardQ := [], recycler := 0,
          recycling_capacity := 2, recycled_nodes := [],
          recycled_cap := 2, nextId := 6 } : World Nat Nat).push 9
      = { forwardQ := [⟨6, 9⟩], backwardQ := [], recycler := 0,
          recycling_capacity := 2, recycled_nodes := [],
          recycled_cap := 2, nextId := 7 }) :=
  ⟨(push_node_source _ 9).1 ⟨5, 7⟩ [] rfl,
    (push_node_source _ 9).2.1 ⟨1, 0⟩ [] rfl rfl,
    (push_node_source _ 9).2.2 rfl rfl⟩

/-- Claim C9: the recycler never runs on the push path: `push` (in
particular when it reuses a node straight from the backward queue,
discarding the old payload and overwriting it with the new item), `pop`
and `push_back` all leave the recycler state unchanged for every
recycler, so a node can complete a full round trip without its payload
passing through the recycler. -/
theorem push_path_never_recycles {α ρ : Type} (w : World α ρ) (item : α)
    (nd : Node α) :
    (w.push item).recycler = w.recycler
    ∧ ((w.pop).2).recycler = w.recycler
    ∧ (w.push_back nd).recycler = w.recycler
    ∧ (∀ n rest, vecPop w.recycled_nodes = none → w.backwardQ = n :: rest →
        w.push item = { w with
          backwardQ := rest
          forwardQ := w.forwardQ ++ [{ n with payload := item }] }) := by
  refine ⟨push_recycler w item, ?_, rfl, ?_⟩
  · rcases h : w.forwardQ with _ | ⟨n, rest⟩ <;> simp [World.pop, h]
  · exact fun n rest h1 h2 => push_eq_backward w item n rest h1 h2

/-- Witness for C9: a full round trip of one node (push, pop, push back,
reuse by the next push) at a concrete state with an empty free-list; the
recycler state stays `0` throughout and the node is reused from the
backward queue. -/
theorem push_path_never_recycles_witness :
    (({ forwardQ := [], backwardQ := [⟨4, 8⟩], recycler := 0,
        recycling_capacity := 1, recycled_nodes := [],
        recycled_cap := 1, nextId := 5 } : World Nat Nat).push 11
      = { forwardQ := [⟨4, 11⟩], backwardQ := [], recycler := 0,
          recycling_capacity := 1, recycled_nodes := [],
          recycled_cap := 1, nextId := 5 })
    ∧ (({ forwardQ := [], backwardQ := [⟨4, 8⟩], recycler := 0,
          recycling_capacity := 1, recycled_nodes := [],
          recycled_cap := 1, nextId := 5 } :
            World Nat Nat).push 11).recycler = 0 :=
  ⟨(push_path_never_recycles
      { forwardQ := [], backwardQ := [⟨4, 8⟩], recycler := 0,
        recycling_capacity := 1, recycled_nodes := [],
        recycled_cap := 1, nextId := 5 } 11 ⟨0, 0⟩).2.2.2
      ⟨4, 8⟩ [] rfl rfl,
    (push_path_never_recycles
      { forwardQ := [], backwardQ := [⟨4, 8⟩], recycler := 0,
        recycling_capacity := 1, recycled_nodes := [],
        recycled_cap := 1, nextId := 5 } 11 ⟨0, 0⟩).1⟩

/-- Claim C2: conservation of the forward path — for every interleaving
of pushes and pops, the payloads returned by the pops followed by the
payloads still in the forward queue are exactly the initial forward-queue
payloads followed by the pushed items, in order; so every pushed item is
popped exactly once (no duplication, no silent loss while queued). -/
theorem conservation {α ρ : Type} (ops : List (Op α)) (w : World α ρ) :
    (runOps ops w).2 ++ payloads (runOps ops w).1.forwardQ
      = payloads w.forwardQ ++ pushedItems ops := by
  induction ops generalizing w with
  | nil => simp [runOps, pushedItems]
  | cons op rest ih =>
    cases op with
    | push a =>
      simp only [runOps, pushedItems]
      rw [ih (w.push a), push_payloads, List.append_assoc]
      simp
    | pop =>
      rcases hq : w.forwardQ with _ | ⟨n, q⟩
      · simpa [runOps, World.pop, hq, pushedItems, payloads] using ih w
      · have := ih { w with forwardQ := q }
        simp only [runOps, World.pop, hq, pushedItems]
        simpa [payloads, hq] using this

/-- Claim C3: order preservation — starting from an empty forward queue,
pushing `P1..Pn` with no interleaved pops and then popping `n` times
yields exactly `P1..Pn` in that order. -/
theorem order_preservation {α ρ : Type} (ps : List α) (w : World α ρ)
    (h : w.forwardQ = []) :
    (popN ps.length (pushAll w ps)).1 = ps := by
  have hp : payloads (pushAll w ps).forwardQ = ps := by
    have : ∀ (l : List α) (v : World α ρ),
        payloads (pushAll v l).forwardQ = payloads v.forwardQ ++ l := by
      intro l
      induction l with
      | nil => intro v; simp [pushAll]
      | cons a restl ihl => intro v; simp [pushAll, ihl, push_payloads]
    simpa [payloads, h] using this ps w
  have key : ∀ (q : List (Node α)) (v : World α ρ), v.forwardQ = q →
      (popN q.length v).1 = payloads q := by
    intro q
    induction q with
    | nil => intro v hv; simp [popN, payloads]
    | cons n restq ihq =>
      intro v hv
      simp only [List.length_cons, popN, World.pop, hv, payloads,
        List.map_cons]
      have := ihq { v with forwardQ := restq } rfl
      simp [this, payloads]
  have hl : (pushAll w ps).forwardQ.length = ps.length := by
    have := congrArg List.length hp
    simpa [payloads] using this
  calc (popN ps.length (pushAll w ps)).1
      = (popN (pushAll w ps).forwardQ.length (pushAll w ps)).1 := by
        rw [hl]
    _ = payloads (pushAll w ps).forwardQ :=
        key (pushAll w ps).forwardQ (pushAll w ps) rfl
    _ = ps := hp

/-- Witness for C3: pushing `[1, 2, 3]` into a fresh pair and popping
three times returns `[1, 2, 3]`. -/
theorem order_preservation_witness :
    (World.new_producer_consumer 0 4 : World Nat Nat).forwardQ = []
    ∧ (popN 3 (pushAll
        (World.new_producer_consumer 0 4 : World Nat Nat) [1, 2, 3])).1
      = [1, 2, 3] :=
  ⟨rfl, order_preservation [1, 2, 3]
    (World.new_producer_consumer 0 4) rfl⟩

/-- Claim C4: the free-list length stays within the configured recycling
capacity — `drain_and_recycle` preserves the bound (the bound holds in
every reachable state, since construction starts at length `0` and every
operation preserves it), and `tune_recycling_capacity n` establishes
length `≤ n` and storage capacity `≥ n` (using the `Vec` invariant
`length ≤ capacity`). -/
theorem capacity_bound {α ρ : Type} (rec : ρ → α → ρ × α)
    (w : World α ρ) (n : Nat)
    (h1 : w.recycled_nodes.length ≤ w.recycling_capacity)
    (h2 : w.recycled_nodes.length ≤ w.recycled_cap) :
    (w.drain_and_recycle rec).recycled_nodes.length
        ≤ (w.drain_and_recycle rec).recycling_capacity
    ∧ (w.tune_recycling_capacity n).recycled_nodes.length ≤ n
    ∧ n ≤ (w.tune_recycling_capacity n).recycled_cap := by
  refine ⟨?_, ?_, ?_⟩
  · have h := (drainGo_eq rec w.backwardQ w.recycler w.recycled_nodes
      w.recycled_cap w.recycling_capacity).2
    have hcap : (w.drain_and_recycle rec).recycling_capacity
        = w.recycling_capacity := rfl
    have hnodes : (w.drain_and_recycle rec).recycled_nodes
        = w.recycled_nodes ++
            (recycleFold rec w.recycler
              (w.backwardQ.take
                (w.recycling_capacity - w.recycled_nodes.length))).2 := h
    rw [hcap, hnodes]
    simp only [List.length_append, recycleFold_length, List.length_take]
    omega
  · by_cases hn : n < w.recycled_nodes.length
    · simp [World.tune_recycling_capacity, hn, List.length_take]
    · simp [World.tune_recycling_capacity, hn]
      omega
  · by_cases hn : n < w.recycled_nodes.length
    · simp [World.tune_recycling_capacity, hn]
      omega
    · simp [World.tune_recycling_capacity, hn]
      exact Or.inr (by omega)

/-- Witness for C4: a state with one returned node, capacity `1`, empty
free-list; draining keeps the length within the capacity and tuning to
`3` establishes the post-condition. -/
theorem capacity_bound_witness :
    (({ forwardQ := [], backwardQ := [⟨0, 5⟩], recycler := 0,
        recycling_capacity := 1, recycled_nodes := [],
        recycled_cap := 1, nextId := 1 } :
          World Nat Nat).recycled_nodes.length ≤ 1
      ∧ (({ forwardQ := [], backwardQ := [⟨0, 5⟩], recycler := 0,
            recycling_capacity := 1, recycled_nodes := [],
            recycled_cap := 1, nextId := 1 } :
              World Nat Nat).drain_and_recycle
            (fun s a => (s + 1, a))).recycled_nodes.length
          ≤ (({ forwardQ := [], backwardQ := [⟨0, 5⟩], recycler := 0,
                recycling_capacity := 1, recycled_nodes := [],
                recycled_cap := 1, nextId := 1 } :
                  World Nat Nat).drain_and_recycle
                (fun s a => (s + 1, a))).recycling_capacity) :=
  ⟨by decide,
    (capacity_bound (fun s a => (s + 1, a))
      { forwardQ := [], backwardQ := [⟨0, 5⟩], recycler := 0,
        recycling_capacity := 1, recycled_nodes := [],
        recycled_cap := 1, nextId := 1 } 3
      (by decide) (by decide)).1⟩

/-- The counting recycler used in the capacity-2 scenario: its state
counts the invocations and it leaves the payload unmodified. -/
def countingRecycler : Nat → Nat → Nat × Nat := fun s a => (s + 1, a)

/-- Scenario state after pushing the three items `10, 20, 30` into a
fresh pair constructed with recycling capacity `2`. -/
def scenarioPushed : World Nat Nat :=
  (((World.new_producer_consumer 0 2 : World Nat Nat).push 10).push
    20).push 30

/-- Scenario: the consumer pops each of the three items and pushes it
back (a pop that unexpectedly found the queue empty would push back a
sentinel node `⟨99, 99⟩`; the theorem checks all three pops succeed). -/
def popAndReturn (w : World Nat Nat) : Option (Node Nat) × World Nat Nat :=
  let s := w.pop
  (s.1, s.2.push_back (s.1.getD ⟨99, 99⟩))

/-- Scenario state after the three returns and one `drain_and_recycle`
with the counting recycler. -/
def scenarioDrained : World Nat Nat :=
  ((popAndReturn (popAndReturn
    (popAndReturn scenarioPushed).2).2).2).drain_and_recycle
    countingRecycler

/-- Claim C6: the capacity-2 scenario — push three items `10, 20, 30`
(allocated as nodes `0, 1, 2`), pop all three and push all three back,
then `drain_and_recycle`: the recycler runs exactly twice, nodes `0` and
`1` enter the free-list, node `2` is dropped; the next two pushes reuse
nodes `1` then `0` without allocating (`nextId` unchanged), and the third
push allocates fresh node `3`. -/
theorem scenario_capacity_two :
    (popAndReturn scenarioPushed).1 = some ⟨0, 10⟩
    ∧ (popAndReturn (popAndReturn scenarioPushed).2).1 = some ⟨1, 20⟩
    ∧ (popAndReturn (popAndReturn
        (popAndReturn scenarioPushed).2).2).1 = some ⟨2, 30⟩
    ∧ scenarioDrained.recycler = 2
    ∧ scenarioDrained.recycled_nodes.map Node.id = [0, 1]
    ∧ scenarioDrained.backwardQ = []
    ∧ (scenarioDrained.push 40).nextId = scenarioDrained.nextId
    ∧ ((scenarioDrained.push 40).push 50).nextId = scenarioDrained.nextId
    ∧ ((scenarioDrained.push 40).push 50).recycled_nodes = []
    ∧ ((scenarioDrained.push 40).push 50).forwardQ.map Node.id = [1, 0]
    ∧ (((scenarioDrained.push 40).push 50).push 60).nextId
        = scenarioDrained.nextId + 1
    ∧ (((scenarioDrained.push 40).push 50).push 60).forwardQ.map Node.id
        = [1, 0, 3] := by
  decide

end Cirque
